import Mathlib

/-
Shallow embedding of the scylladb/local-csi-driver core:
the volume state store (pkg/driver/volume StateManager), the volume
manager (pkg/driver/volume VolumeManager), the XFS limiter
(pkg/driver/limit/xfs), and the CSI controller/node handlers
(pkg/driver driver.CreateVolume, DeleteVolume, GetCapacity,
NodePublishVolume, NodeGetInfo).

File system effects are modelled explicitly: the volumes root is a list
of volume directories plus a list of state files, Go maps are
association lists with insert-overwrite semantics, and failure
injection points (state.save, limiter.set_limit, limiter.remove_limit,
statfs) are explicit parameters.

File names are embedded as (stem, extension) pairs: the Go code builds
a state file path as id + ".json" and the startup scan tests
path.Ext(name) == ".json"; for any concrete file name this split by
the last dot is canonical, and for a state file the stem is exactly
the volume id.
-/

namespace LocalCsi

/-- Association-list lookup with first-match semantics; together with
insert-erase below it models a Go map. -/
def lookupA {α β : Type} [DecidableEq α] (k : α) : List (α × β) → Option β
  | [] => none
  | (k₁, v) :: t => if k₁ = k then some v else lookupA k t

/-- Remove every binding of a key. -/
def eraseA {α β : Type} [DecidableEq α] (k : α) : List (α × β) → List (α × β)
  | [] => []
  | (k₁, v) :: t => if k₁ = k then eraseA k t else (k₁, v) :: eraseA k t

/-- Go map write m[k] = v: overwrite any previous binding. -/
def insertA {α β : Type} [DecidableEq α] (k : α) (v : β) (l : List (α × β)) :
    List (α × β) :=
  (k, v) :: eraseA k l

/-- Remove an element from a plain list (directory removal). -/
def eraseL {α : Type} [DecidableEq α] (x : α) : List α → List α
  | [] => []
  | y :: t => if y = x then eraseL x t else y :: eraseL x t

/-- Add an element if absent (mkdir with existing-directory accepted). -/
def insertL {α : Type} [DecidableEq α] (x : α) (l : List α) : List α :=
  if x ∈ l then l else x :: l

/-- A durable volume record, pkg/driver/volume VolumeState:
name, id, limitID (uint32 project id), size (int64 bytes). -/
structure VolumeState where
  name : String
  id : String
  limitID : Nat
  size : Int
  deriving Repr, DecidableEq

/-- VolumeState.IsEmpty: len(Name) == 0 or len(ID) == 0. -/
def VolumeState.isEmpty (vs : VolumeState) : Bool :=
  vs.name == "" || vs.id == ""

/-- A file name under the volumes root, split at the last dot into
stem and extension (path.Ext returns the extension). -/
abbrev FileName := String × String

/-- StateManager.getVolumeStatePath: the state file for a volume id is
id + ".json". -/
def stateFileName (id : String) : FileName := (id, ".json")

/-- On-disk content of a file under the volumes root. A state file
written completely holds the encoded record; a file created by
os.Create whose JSON encoding then failed is left truncated. -/
inductive FileContent where
  | record (vs : VolumeState)
  | truncated
  deriving Repr, DecidableEq

/-- In-memory StateManager indices: volumes by id, name-to-id, and the
accumulated total size. -/
structure StateMem where
  volumes : List (String × VolumeState)
  nameToID : List (String × String)
  totalSize : Int
  deriving Repr, DecidableEq

/-- MetadataFileMaxSize = 4 * 1024. -/
def metadataFileMaxSize : Int := 4 * 1024

/-- StateManager.GetVolumeStateByID. -/
def getVolumeStateByID (mem : StateMem) (id : String) : Option VolumeState :=
  lookupA id mem.volumes

/-- StateManager.GetVolumeStateByName: volumes[volumeNameToID[name]];
a missing name yields the zero-value key "". -/
def getVolumeStateByName (mem : StateMem) (name : String) : Option VolumeState :=
  lookupA ((lookupA name mem.nameToID).getD "") mem.volumes

/-- Injection point for StateManager.SaveVolumeState: the call either
succeeds, fails at os.Create (no file written), fails while encoding
(file already created and truncated), or fails when closing the file
(record fully written and indices updated before the error surfaces). -/
inductive SaveOutcome where
  | ok
  | failCreate
  | failEncode
  | failClose
  deriving Repr, DecidableEq

/-- StateManager.SaveVolumeState: create/truncate the state file,
encode the record, close, then update both indices and the total size.
Returns true on success; on failure the file system and memory effects
reached before the failing step remain. -/
def saveVolumeState (vs : VolumeState) (out : SaveOutcome)
    (files : List (FileName × FileContent)) (mem : StateMem) :
    Bool × List (FileName × FileContent) × StateMem :=
  match out with
  | .failCreate => (false, files, mem)
  | .failEncode => (false, insertA (stateFileName vs.id) FileContent.truncated files, mem)
  | .failClose =>
      (false, insertA (stateFileName vs.id) (FileContent.record vs) files,
        { volumes := insertA vs.id vs mem.volumes
          nameToID := insertA vs.name vs.id mem.nameToID
          totalSize := mem.totalSize + vs.size })
  | .ok =>
      (true, insertA (stateFileName vs.id) (FileContent.record vs) files,
        { volumes := insertA vs.id vs mem.volumes
          nameToID := insertA vs.name vs.id mem.nameToID
          totalSize := mem.totalSize + vs.size })

/-- StateManager.DeleteVolumeState: remove the state file (absent is
success), then drop both indices and subtract the recorded size. -/
def deleteVolumeState (id : String)
    (files : List (FileName × FileContent)) (mem : StateMem) :
    List (FileName × FileContent) × StateMem :=
  let files₁ := eraseA (stateFileName id) files
  match lookupA id mem.volumes with
  | none => (files₁, mem)
  | some v =>
      (files₁,
        { volumes := eraseA id mem.volumes
          nameToID := eraseA v.name mem.nameToID
          totalSize := mem.totalSize - v.size })

/-- NewStateManager: scan the volumes root one level deep; for each
file whose extension is ".json" parse the record (a truncated file
fails the whole load), skip records with empty id or name, index the
rest and accumulate the total size. -/
def loadStateAux : List (FileName × FileContent) → StateMem → Option StateMem
  | [], m => some m
  | (fname, c) :: t, m =>
      if fname.2 = ".json" then
        match c with
        | .truncated => none
        | .record vs =>
            if vs.isEmpty then loadStateAux t m
            else loadStateAux t
              { volumes := insertA vs.id vs m.volumes
                nameToID := insertA vs.name vs.id m.nameToID
                totalSize := m.totalSize + vs.size }
      else loadStateAux t m

/-- NewStateManager entry point over the files of the volumes root. -/
def newStateManager (files : List (FileName × FileContent)) : Option StateMem :=
  loadStateAux files { volumes := [], nameToID := [], totalSize := 0 }

/-- pkg/driver/volume AccessType (iota: MountAccess = 0, BlockAccess). -/
inductive AccessType where
  | mount
  | block
  deriving Repr, DecidableEq

/-- The combined state owned by the driver: volume directories and
state files under the volumes root, the in-memory store, the quota
table (limit id to block hard limit in bytes as set through the
limiter), and bind-mount state for the node service (target
directories and target-to-source mounts with their options). -/
structure Sys where
  dirs : List String
  files : List (FileName × FileContent)
  mem : StateMem
  limits : List (Nat × Int)
  targets : List String
  mounts : List (String × (String × List String))
  deriving Repr, DecidableEq

/-- Behaviour injected for the limit.Limiter collaborator: NewLimit
either yields a fresh project id or fails; SetLimit and RemoveLimit
either apply or fail. -/
structure LimiterBehavior where
  newLimitResult : Option Nat
  setLimitFails : Bool
  removeLimitFails : Bool
  deriving Repr, DecidableEq

/-- Result of VolumeManager.CreateVolume / DeleteVolume, by failing
step. -/
inductive VmResult where
  | ok
  | statfsErr
  | accessErr
  | newLimitErr
  | saveErr
  | setLimitErr
  | removeLimitErr
  deriving Repr, DecidableEq

/-- VolumeManager.GetAvailableCapacity with the statfs readings given:
Bsize * Blocks - GetTotalVolumesSize() - (len(GetVolumes()) + 1) *
MetadataFileMaxSize. -/
def getAvailableCapacity (blocks bsize : Int) (mem : StateMem) : Int :=
  bsize * blocks - mem.totalSize - ((mem.volumes.length : Int) + 1) * metadataFileMaxSize

/-- VolumeManager.CreateVolume. statfsOK injects the GetAvailableCapacity
syscall outcome; note the fetched capacity value itself is never
compared against the request. On a NewLimit failure the directory is
removed; on a save failure the directory and the limit are removed; on
a SetLimit failure the directory, the limit and the state record are
removed; the error propagates in each case. -/
def createVolume (statfsOK : Bool) (lb : LimiterBehavior) (save : SaveOutcome)
    (volID name : String) (capacity : Int) (acc : AccessType) (s : Sys) :
    VmResult × Sys :=
  if statfsOK = false then (.statfsErr, s)
  else if acc ≠ AccessType.mount then (.accessErr, s)
  else
    let s₁ : Sys := { s with dirs := insertL volID s.dirs }
    match lb.newLimitResult with
    | none => (.newLimitErr, { s₁ with dirs := eraseL volID s₁.dirs })
    | some qid =>
        let vs : VolumeState := { name := name, id := volID, limitID := qid, size := capacity }
        let r := saveVolumeState vs save s₁.files s₁.mem
        let s₂ : Sys := { s₁ with files := r.2.1, mem := r.2.2 }
        if r.1 = false then
          let s₃ : Sys := { s₂ with dirs := eraseL volID s₂.dirs }
          let s₄ : Sys :=
            if lb.removeLimitFails then s₃
            else { s₃ with limits := insertA qid 0 s₃.limits }
          (.saveErr, s₄)
        else if lb.setLimitFails then
          let s₃ : Sys := { s₂ with dirs := eraseL volID s₂.dirs }
          let s₄ : Sys :=
            if lb.removeLimitFails then s₃
            else { s₃ with limits := insertA qid 0 s₃.limits }
          let d := deleteVolumeState volID s₄.files s₄.mem
          (.setLimitErr, { s₄ with files := d.1, mem := d.2 })
        else
          (.ok, { s₂ with limits := insertA qid capacity s₂.limits })

/-- VolumeManager.DeleteVolume: look up the record (may be absent),
remove the directory recursively (absent is success), remove the limit
when a record was found, then delete the state record (absent is
success). -/
def deleteVolume (lb : LimiterBehavior) (volID : String) (s : Sys) :
    VmResult × Sys :=
  let s₁ : Sys := { s with dirs := eraseL volID s.dirs }
  match lookupA volID s.mem.volumes with
  | some v =>
      if lb.removeLimitFails then (.removeLimitErr, s₁)
      else
        let s₂ : Sys := { s₁ with limits := insertA v.limitID 0 s₁.limits }
        let d := deleteVolumeState volID s₂.files s₂.mem
        (.ok, { s₂ with files := d.1, mem := d.2 })
  | none =>
      let d := deleteVolumeState volID s₁.files s₁.mem
      (.ok, { s₁ with files := d.1, mem := d.2 })

/-- VolumeManager.Mount: create the target directory (existing is
fine), then bind-mount the volume directory onto the target; the
kernel rejects a bind mount whose source directory does not exist. -/
def vmMount (volumeID targetPath : String) (opts : List String) (s : Sys) :
    Bool × Sys :=
  let s₁ : Sys := { s with targets := insertL targetPath s.targets }
  if volumeID ∈ s₁.dirs then
    (true, { s₁ with mounts := insertA targetPath (volumeID, opts) s₁.mounts })
  else (false, s₁)

/-- gRPC status codes appearing in the handlers. -/
inductive GrpcCode where
  | invalidArgument
  | alreadyExists
  | outOfRange
  | resourceExhausted
  | internal
  | notFound
  deriving Repr, DecidableEq

/-- CSI volume capability access mode: the driver supports only
SINGLE_NODE_WRITER. -/
inductive AccessMode where
  | singleNodeWriter
  | other
  deriving Repr, DecidableEq

/-- CSI volume capability access type oneof: mount (with fs type and
mount flags), block, or unset. -/
inductive CapAccess where
  | mountCap (fsType : String) (flags : List String)
  | blockCap
  | unset
  deriving Repr, DecidableEq

/-- A CSI volume capability. -/
structure VolCap where
  mode : AccessMode
  access : CapAccess
  deriving Repr, DecidableEq

/-- driver.validateVolumeCapabilities: every capability must have a
supported access mode, a mount access type, and a supported fs type
("" or "xfs"); any violation aggregates into an error. -/
def validVolCap (c : VolCap) : Bool :=
  c.mode == AccessMode.singleNodeWriter &&
    match c.access with
    | .mountCap ft _ => ft == "" || ft == "xfs"
    | _ => false

/-- The aggregated validateVolumeCapabilities check. -/
def validateVolumeCapabilities (caps : List VolCap) : Bool :=
  caps.all validVolCap

/-- The capability classification loop of driver.CreateVolume:
accumulates (sawBlock, sawMount, requestedAccessType, requestedFsType),
starting from Go zero values, failing on an unset access type. -/
def classifyCapsAux (acc : Bool × Bool × AccessType × String) :
    List VolCap → Option (Bool × Bool × AccessType × String)
  | [] => some acc
  | c :: t =>
      match c.access with
      | .blockCap => classifyCapsAux (true, acc.2.1, AccessType.block, acc.2.2.2) t
      | .mountCap ft _ => classifyCapsAux (acc.1, true, AccessType.mount, ft) t
      | .unset => none

/-- NodeNameTopologyKey. -/
def nodeNameTopologyKey : String := "local.csi.scylladb.com/node"

/-- Semantic equality of two topology segment maps (DeepEqual over
map[string]string). -/
def segmentsEq (a b : List (String × String)) : Bool :=
  a.all (fun p => lookupA p.1 b == some p.2) &&
    b.all (fun p => lookupA p.1 a == some p.2)

/-- Semantic equality of two lists of topology segment maps. -/
def topoListEq : List (List (String × String)) → List (List (String × String)) → Bool
  | [], [] => true
  | a :: xs, b :: ys => segmentsEq a b && topoListEq xs ys
  | _, _ => false

/-- A CSI CreateVolume request: name, capabilities (empty models a nil
slice), parameter keys, requisite accessibility topologies, and the
required bytes of the capacity range. -/
structure CreateVolumeRequest where
  name : String
  caps : List VolCap
  parameters : List String
  requisite : List (List (String × String))
  requiredBytes : Int
  deriving Repr, DecidableEq

/-- Environment of one controller CreateVolume call: node name, statfs
outcome and readings, the generated random volume id, and the injected
limiter and save behaviour. -/
structure DriverEnv where
  nodeName : String
  statfsOK : Bool
  blocks : Int
  bsize : Int
  newUUID : String
  lb : LimiterBehavior
  save : SaveOutcome
  deriving Repr, DecidableEq

/-- Outcome of the controller CreateVolume handler. -/
inductive CvOut where
  | ok (volumeId : String) (capacityBytes : Int)
  | err (code : GrpcCode)
  deriving Repr, DecidableEq

/-- driver.CreateVolume (pkg/driver/controller.go): validation, the
name-idempotency shortcut, then the capacity check and the volume
manager call under the create-serialization lock. -/
def driverCreateVolume (env : DriverEnv) (req : CreateVolumeRequest) (s : Sys) :
    CvOut × Sys :=
  if req.name = "" then (.err .invalidArgument, s)
  else if req.caps = [] then (.err .invalidArgument, s)
  else if validateVolumeCapabilities req.caps = false then (.err .invalidArgument, s)
  else if req.parameters ≠ [] then (.err .invalidArgument, s)
  else
    match classifyCapsAux (false, false, AccessType.mount, "") req.caps with
    | none => (.err .invalidArgument, s)
    | some (sawBlock, sawMount, accType, fsType) =>
        if sawBlock && sawMount then (.err .invalidArgument, s)
        else if accType ≠ AccessType.mount then (.err .invalidArgument, s)
        else if (fsType == "" || fsType == "xfs") = false then (.err .invalidArgument, s)
        else if req.requisite ≠ [] ∧
            topoListEq req.requisite [[(nodeNameTopologyKey, env.nodeName)]] = false then
          (.err .resourceExhausted, s)
        else
          let capacity := req.requiredBytes
          match getVolumeStateByName s.mem req.name with
          | some vs =>
              if vs.size ≠ capacity then (.err .alreadyExists, s)
              else (.ok vs.id capacity, s)
          | none =>
              let volumeID := env.newUUID
              if env.statfsOK = false then (.err .internal, s)
              else if capacity > getAvailableCapacity env.blocks env.bsize s.mem then
                (.err .outOfRange, s)
              else
                let r := createVolume true env.lb env.save volumeID req.name capacity accType s
                if r.1 = VmResult.ok then (.ok volumeID capacity, r.2)
                else (.err .internal, r.2)

/-- driver.DeleteVolume: reject an empty id, else call the volume
manager; any manager failure maps to Internal. -/
def driverDeleteVolume (lb : LimiterBehavior) (volID : String) (s : Sys) :
    (Except GrpcCode Unit) × Sys :=
  if volID = "" then (.error .invalidArgument, s)
  else
    let r := deleteVolume lb volID s
    if r.1 = VmResult.ok then (.ok (), r.2) else (.error .internal, r.2)

/-- driver.GetCapacity: return GetAvailableCapacity as
AvailableCapacity, with no further processing. -/
def driverGetCapacity (statfsOK : Bool) (blocks bsize : Int) (s : Sys) :
    Except GrpcCode Int :=
  if statfsOK = false then .error .internal
  else .ok (getAvailableCapacity blocks bsize s.mem)

/-- limit.MaxLimits = math.MaxUint32 - 1. -/
def maxLimits : Nat := 4294967295 - 1

/-- The NodeGetInfo response: node id, max volumes per node, and the
single accessible-topology segment map. -/
structure NodeGetInfoResponse where
  nodeId : String
  maxVolumesPerNode : Nat
  topologySegments : List (String × String)
  deriving Repr, DecidableEq

/-- driver.NodeGetInfo. -/
def nodeGetInfo (nodeName : String) : NodeGetInfoResponse :=
  { nodeId := nodeName
    maxVolumesPerNode := maxLimits
    topologySegments := [(nodeNameTopologyKey, nodeName)] }

/-- slices.Unique modelled with first-occurrence order (the Go version
iterates a map, so only the element set is specified). -/
def uniqueAux (seen : List String) : List String → List String
  | [] => []
  | x :: t => if x ∈ seen then uniqueAux seen t else x :: uniqueAux (x :: seen) t

/-- Deduplicate mount options. -/
def uniqueL (l : List String) : List String := uniqueAux [] l

/-- A CSI NodePublishVolume request. -/
structure NodePublishRequest where
  volumeId : String
  targetPath : String
  volCap : Option VolCap
  readonly : Bool
  deriving Repr, DecidableEq

/-- driver.NodePublishVolume: validate target path and capability,
build the mount options (bind, plus ro when read-only, plus the mount
flags, deduplicated), then bind-mount the volume directory; a mount
failure maps to Internal. The state store is never consulted. -/
def nodePublishVolume (req : NodePublishRequest) (s : Sys) :
    (Except GrpcCode Unit) × Sys :=
  if req.targetPath = "" then (.error .invalidArgument, s)
  else
    match req.volCap with
    | none => (.error .invalidArgument, s)
    | some c =>
        if validVolCap c = false then (.error .invalidArgument, s)
        else
          match c.access with
          | .mountCap _ flags =>
              let opts := uniqueL (("bind" :: (if req.readonly then ["ro"] else [])) ++ flags)
              let r := vmMount req.volumeId req.targetPath opts s
              if r.1 then (.ok (), r.2) else (.error .internal, r.2)
          | _ => (.error .invalidArgument, s)

/-- Environment of the XFS limiter startup: the probed filesystem
type, the mount entry type and options of the volumes root, and the
XFS project id stored in each volume directory (none models a
directory that cannot be opened). -/
structure XfsEnv where
  fsType : String
  entryType : String
  mountOpts : List String
  dirProjectID : String → Option Nat

/-- Failure modes of NewXFSLimiter. -/
inductive XfsErr where
  | notXfs
  | entryMismatch
  | noPquota
  | openFailed (id : String)
  | tampered (id : String)
  deriving Repr, DecidableEq

/-- bytesToBlocks: uint64(capacity >> 9); an arithmetic right shift of
an int64 is floor division by 512, and the uint64 conversion reduces
modulo 2^64. -/
def bytesToBlocks (capacity : Int) : Nat :=
  ((Int.fdiv capacity 512) % (2 : Int) ^ 64).toNat

/-- xfsLimiter.SetLimit: quotactl Q_XSETQLIM with FS_DQ_BHARD and
BlkHardLimit = bytesToBlocks(capacity), recorded in the quota table. -/
def xfsSetLimit (projectID : Nat) (capacityBytes : Int) (tbl : List (Nat × Nat)) :
    List (Nat × Nat) :=
  insertA projectID (bytesToBlocks capacityBytes) tbl

/-- xfsLimiter.restoreVolumeQuota: open the volume directory, read its
project id, compare with the recorded limit id (mismatch is a
tampering error), then re-apply the block hard-limit. -/
def restoreVolumeQuota (env : XfsEnv) (v : VolumeState) (tbl : List (Nat × Nat)) :
    Except XfsErr (List (Nat × Nat)) :=
  match env.dirProjectID v.id with
  | none => .error (.openFailed v.id)
  | some pid =>
      if pid ≠ v.limitID then .error (.tampered v.id)
      else .ok (xfsSetLimit v.limitID v.size tbl)

/-- The startup loop over every recorded volume. -/
def restoreAll (env : XfsEnv) : List VolumeState → List (Nat × Nat) →
    Except XfsErr (List (Nat × Nat))
  | [], tbl => .ok tbl
  | v :: t, tbl =>
      match restoreVolumeQuota env v tbl with
      | .error e => .error e
      | .ok tbl₁ => restoreAll env t tbl₁

/-- The quota table produced by a fully successful reconciliation. -/
def restoreTable (volumes : List VolumeState) (tbl : List (Nat × Nat)) :
    List (Nat × Nat) :=
  volumes.foldl (fun t v => xfsSetLimit v.limitID v.size t) tbl

/-- NewXFSLimiter: require the XFS filesystem type, a matching mount
entry, and the pquota or prjquota mount option, then reconcile every
recorded volume. -/
def newXFSLimiter (env : XfsEnv) (volumes : List VolumeState)
    (tbl : List (Nat × Nat)) : Except XfsErr (List (Nat × Nat)) :=
  if env.fsType ≠ "xfs" then .error .notXfs
  else if env.entryType ≠ env.fsType then .error .entryMismatch
  else if ((env.mountOpts.contains "pquota" || env.mountOpts.contains "prjquota") = false) then
    .error .noPquota
  else restoreAll env volumes tbl

/-- The empty driver state: no directories, no files, empty store. -/
def emptySys : Sys :=
  { dirs := []
    files := []
    mem := { volumes := [], nameToID := [], totalSize := 0 }
    limits := []
    targets := []
    mounts := [] }

theorem lookupA_eraseA_self {α β : Type} [DecidableEq α] (k : α) (l : List (α × β)) :
    lookupA k (eraseA k l) = none := by
  induction l with
  | nil => rfl
  | cons p t ih =>
      obtain ⟨k₁, v⟩ := p
      by_cases h : k₁ = k
      · simpa [eraseA, h] using ih
      · simp [eraseA, h, lookupA, ih]

theorem lookupA_eraseA_ne {α β : Type} [DecidableEq α] {k k₁ : α} (l : List (α × β))
    (h : k₁ ≠ k) : lookupA k₁ (eraseA k l) = lookupA k₁ l := by
  induction l with
  | nil => rfl
  | cons p t ih =>
      obtain ⟨k₂, v⟩ := p
      by_cases h₂ : k₂ = k
      · have h₄ : ¬ k = k₁ := h.symm
        simp [eraseA, lookupA, h₂, h₄, ih]
      · by_cases h₃ : k₂ = k₁ <;> simp [eraseA, lookupA, h₂, h₃, h, ih]

theorem eraseA_of_lookup_none {α β : Type} [DecidableEq α] {k : α} {l : List (α × β)}
    (h : lookupA k l = none) : eraseA k l = l := by
  induction l with
  | nil => rfl
  | cons p t ih =>
      obtain ⟨k₁, v⟩ := p
      by_cases h₁ : k₁ = k
      · simp [lookupA, h₁] at h
      · simp [lookupA, h₁] at h
        simp [eraseA, h₁, ih h]

theorem eraseA_eraseA {α β : Type} [DecidableEq α] (k : α) (l : List (α × β)) :
    eraseA k (eraseA k l) = eraseA k l :=
  eraseA_of_lookup_none (lookupA_eraseA_self k l)

theorem lookupA_insertA_self {α β : Type} [DecidableEq α] (k : α) (v : β)
    (l : List (α × β)) : lookupA k (insertA k v l) = some v := by
  simp [insertA, lookupA]

theorem lookupA_insertA_ne {α β : Type} [DecidableEq α] {k k₁ : α} (v : β)
    (l : List (α × β)) (h : k₁ ≠ k) :
    lookupA k₁ (insertA k v l) = lookupA k₁ l := by
  have h₂ : ¬ k = k₁ := h.symm
  simp [insertA, lookupA, h₂, lookupA_eraseA_ne l h]

theorem eraseA_insertA_cancel {α β : Type} [DecidableEq α] {k : α} (v : β)
    {l : List (α × β)} (h : lookupA k l = none) :
    eraseA k (insertA k v l) = l := by
  simp [insertA, eraseA, eraseA_eraseA, eraseA_of_lookup_none h]

theorem length_insertA {α β : Type} [DecidableEq α] {k : α} (v : β)
    {l : List (α × β)} (h : lookupA k l = none) :
    (insertA k v l).length = l.length + 1 := by
  simp [insertA, eraseA_of_lookup_none h]

theorem eraseL_of_not_mem {α : Type} [DecidableEq α] {x : α} {l : List α}
    (h : x ∉ l) : eraseL x l = l := by
  induction l with
  | nil => rfl
  | cons y t ih =>
      simp only [List.mem_cons, not_or] at h
      have h₁ : ¬ y = x := fun hh => h.1 hh.symm
      simp [eraseL, h₁, ih h.2]

theorem eraseL_insertL_cancel {α : Type} [DecidableEq α] {x : α} {l : List α}
    (h : x ∉ l) : eraseL x (insertL x l) = l := by
  simp [insertL, h, eraseL, eraseL_of_not_mem h]

theorem not_mem_eraseL {α : Type} [DecidableEq α] (x : α) (l : List α) :
    x ∉ eraseL x l := by
  induction l with
  | nil => simp [eraseL]
  | cons y t ih =>
      by_cases h : y = x
      · simpa [eraseL, h] using ih
      · have h₂ : ¬ x = y := fun hh => h hh.symm
        simp [eraseL, h, ih, h₂]

theorem eraseL_eraseL {α : Type} [DecidableEq α] (x : α) (l : List α) :
    eraseL x (eraseL x l) = eraseL x l :=
  eraseL_of_not_mem (not_mem_eraseL x l)

/-- C9 counterexample: the claim states that NodeGetInfo returns
max_volumes_per_node = 2^32 - 1, but limit.MaxLimits is
math.MaxUint32 - 1, i.e. 2^32 - 2, so the returned value differs from
2^32 - 1. -/
theorem c9_counterexample :
    (nodeGetInfo "node-a").maxVolumesPerNode ≠ 2 ^ 32 - 1 := by
  decide

/-- C9 amended: for every NodeGetInfo request the handler returns
max_volumes_per_node equal to 2^32 - 2 (limit.MaxLimits =
math.MaxUint32 - 1), together with the node name and the single
accessible-topology segment mapping the node-name key to the
configured node name. -/
theorem c9_amended (nodeName : String) :
    nodeGetInfo nodeName =
      { nodeId := nodeName
        maxVolumesPerNode := 2 ^ 32 - 2
        topologySegments := [(nodeNameTopologyKey, nodeName)] } := by
  rfl

/-- C7 counterexample: the claim states the GetCapacity handler clamps
the advertised capacity to be nonnegative, but with statfs reporting
one 4096-byte block and one recorded volume of size 0 the handler
returns the raw value -4096, which is negative. -/
theorem c7_counterexample :
    driverGetCapacity true 1 4096
      { dirs := ["u1"]
        files := [(stateFileName "u1", FileContent.record ⟨"v1", "u1", 3, 0⟩)]
        mem := { volumes := [("u1", ⟨"v1", "u1", 3, 0⟩)], nameToID := [("v1", "u1")], totalSize := 0 }
        limits := [(3, 0)]
        targets := []
        mounts := [] } = Except.ok (-4096) ∧ (-4096 : Int) < 0 := by
  constructor
  · rfl
  · norm_num

/-- C7 amended: the GetCapacity handler returns the raw computation
block_count * block_size - total recorded size - (volume count + 1) *
4096 with no clamping; the advertised value can be negative. -/
theorem c7_amended (blocks bsize : Int) (s : Sys) :
    driverGetCapacity true blocks bsize s =
      Except.ok (bsize * blocks - s.mem.totalSize -
        ((s.mem.volumes.length : Int) + 1) * 4096) := by
  simp [driverGetCapacity, getAvailableCapacity, metadataFileMaxSize]

/-- C2: the claim states VolumeManager.CreateVolume itself fails with
OutOfRange when the requested capacity exceeds the available one, but
the code only errors when the statfs call itself fails and never
compares the request against the fetched capacity: on the empty root
with 4096 bytes raw the available capacity is 0, yet a create for
1000000 bytes succeeds and records the volume. -/
theorem c2_code_bug :
    getAvailableCapacity 1 4096 emptySys.mem = 0 ∧
    (1000000 : Int) > getAvailableCapacity 1 4096 emptySys.mem ∧
    (createVolume true ⟨some 3, false, false⟩ SaveOutcome.ok
      "u1" "v1" 1000000 AccessType.mount emptySys).1 = VmResult.ok ∧
    lookupA "u1" (createVolume true ⟨some 3, false, false⟩ SaveOutcome.ok
      "u1" "v1" 1000000 AccessType.mount emptySys).2.mem.volumes =
      some ⟨"v1", "u1", 3, 1000000⟩ := by
  refine ⟨by decide, by decide, rfl, rfl⟩

/-- C4: delete_volume is idempotent: for every non-empty id (the CSI
handler rejects an empty id), a call on an id with no recorded state,
no directory and no state file succeeds and leaves the state
unchanged, and a second call immediately after any successful delete
of the same id also succeeds and leaves the state store and volumes
root unchanged from the first call's result. -/
theorem c4_delete_idempotent (lb : LimiterBehavior) (volID : String) (s : Sys)
    (hne : volID ≠ "") :
    (lookupA volID s.mem.volumes = none → volID ∉ s.dirs →
      lookupA (stateFileName volID) s.files = none →
      driverDeleteVolume lb volID s = (Except.ok (), s)) ∧
    (∀ s₁, driverDeleteVolume lb volID s = (Except.ok (), s₁) →
      driverDeleteVolume lb volID s₁ = (Except.ok (), s₁)) := by
  constructor
  · intro h₁ h₂ h₃
    simp [driverDeleteVolume, hne, deleteVolume, h₁, deleteVolumeState,
      eraseL_of_not_mem h₂, eraseA_of_lookup_none h₃]
  · intro s₁ h
    cases hvol : lookupA volID s.mem.volumes with
    | none =>
        have h₂ : (driverDeleteVolume lb volID s).2 = s₁ := by rw [h]
        simp only [driverDeleteVolume, if_neg hne, deleteVolume, hvol,
          deleteVolumeState] at h₂
        simp only [reduceIte] at h₂
        subst h₂
        simp [driverDeleteVolume, hne, deleteVolume, hvol, deleteVolumeState,
          eraseL_eraseL, eraseA_eraseA]
    | some v =>
        by_cases hrl : lb.removeLimitFails
        · exfalso
          simp [driverDeleteVolume, hne, deleteVolume, hvol, hrl] at h
        · rw [Bool.not_eq_true] at hrl
          have h₂ : (driverDeleteVolume lb volID s).2 = s₁ := by rw [h]
          simp only [driverDeleteVolume, if_neg hne, deleteVolume, hvol, hrl,
            deleteVolumeState, Bool.false_eq_true, if_false] at h₂
          simp only [reduceIte] at h₂
          subst h₂
          simp [driverDeleteVolume, hne, deleteVolume, deleteVolumeState,
            lookupA_eraseA_self, eraseL_eraseL, eraseA_eraseA]

/-- C4 witness: deleting the unknown id u1 on the empty state succeeds
and changes nothing. -/
theorem c4_witness :
    driverDeleteVolume ⟨some 0, false, false⟩ "u1" emptySys = (Except.ok (), emptySys) :=
  (c4_delete_idempotent ⟨some 0, false, false⟩ "u1" emptySys (by decide)).1
    rfl (by simp [emptySys]) rfl

/-- C1 counterexample: the claim states that a failing state.save
during create leaves the volumes root and state store identical to the
pre-call state, but injecting the failure in the JSON encoding step
(after os.Create already created the state file) leaves a truncated
u1.json under the volumes root: the error propagates, yet the files
differ from the empty pre-call root. -/
theorem c1_counterexample :
    (createVolume true ⟨some 7, false, false⟩ SaveOutcome.failEncode
      "u1" "v1" 5 AccessType.mount emptySys).1 = VmResult.saveErr ∧
    (createVolume true ⟨some 7, false, false⟩ SaveOutcome.failEncode
      "u1" "v1" 5 AccessType.mount emptySys).2.files =
      [(stateFileName "u1", FileContent.truncated)] ∧
    emptySys.files = [] :=
  ⟨rfl, rfl, rfl⟩

/-- C1 amended: during create of a fresh volume, if state.save fails
at the file-creation step (before any byte reaches the root), or if
state.save succeeds and limiter.set_limit fails (with the
compensation's remove_limit and state delete succeeding), then the
compensation sequence runs, the error propagates, and the volume
directories, state files, indices and total size are all left
identical to the pre-call state. A save failure after the state file
was created (encode or close error) instead leaves a state file
behind. -/
theorem c1_amended (volID name : String) (capacity : Int) (qid : Nat)
    (save : SaveOutcome) (slFails : Bool) (s : Sys)
    (hdir : volID ∉ s.dirs)
    (hfile : lookupA (stateFileName volID) s.files = none)
    (hid : lookupA volID s.mem.volumes = none)
    (hname : lookupA name s.mem.nameToID = none)
    (hinj : save = SaveOutcome.failCreate ∨
      (save = SaveOutcome.ok ∧ slFails = true)) :
    (createVolume true ⟨some qid, slFails, false⟩ save volID name capacity
      AccessType.mount s).1 ≠ VmResult.ok ∧
    (createVolume true ⟨some qid, slFails, false⟩ save volID name capacity
      AccessType.mount s).2.dirs = s.dirs ∧
    (createVolume true ⟨some qid, slFails, false⟩ save volID name capacity
      AccessType.mount s).2.files = s.files ∧
    (createVolume true ⟨some qid, slFails, false⟩ save volID name capacity
      AccessType.mount s).2.mem = s.mem := by
  obtain ⟨d, f, ⟨mv, mn, mt⟩, li, tg, mo⟩ := s
  simp only [Sys.mk.injEq] at *
  rcases hinj with hc | ⟨hok, hsl⟩
  · subst hc
    refine ⟨?_, ?_, ?_, ?_⟩ <;>
      simp [createVolume, saveVolumeState, eraseL_insertL_cancel hdir]
  · subst hok
    subst hsl
    refine ⟨?_, ?_, ?_, ?_⟩ <;>
      simp [createVolume, saveVolumeState, deleteVolumeState,
        eraseL_insertL_cancel hdir, lookupA_insertA_self,
        eraseA_insertA_cancel _ hfile, eraseA_insertA_cancel _ hid,
        eraseA_insertA_cancel _ hname]

/-- C1 witness: a set_limit failure while creating volume u1 on the
empty root propagates the error and leaves the root and store empty. -/
theorem c1_witness :
    (createVolume true ⟨some 7, true, false⟩ SaveOutcome.ok "u1" "v1" 5
      AccessType.mount emptySys).1 ≠ VmResult.ok ∧
    (createVolume true ⟨some 7, true, false⟩ SaveOutcome.ok "u1" "v1" 5
      AccessType.mount emptySys).2.dirs = emptySys.dirs ∧
    (createVolume true ⟨some 7, true, false⟩ SaveOutcome.ok "u1" "v1" 5
      AccessType.mount emptySys).2.files = emptySys.files ∧
    (createVolume true ⟨some 7, true, false⟩ SaveOutcome.ok "u1" "v1" 5
      AccessType.mount emptySys).2.mem = emptySys.mem :=
  c1_amended "u1" "v1" 5 7 SaveOutcome.ok true emptySys
    (by simp [emptySys]) rfl rfl rfl (Or.inr ⟨rfl, rfl⟩)

/-- C6: with the statfs readings fixed, a successful create of a fresh
volume of size S decreases GetAvailableCapacity by exactly S + 4096
(per block_count * block_size - total size - (count + 1) * 4096), and
the matching delete restores the pre-create value. -/
theorem c6_capacity_conservation (blocks bsize : Int) (volID name : String)
    (S : Int) (qid : Nat) (s : Sys)
    (hdir : volID ∉ s.dirs)
    (hfile : lookupA (stateFileName volID) s.files = none)
    (hid : lookupA volID s.mem.volumes = none)
    (hname : lookupA name s.mem.nameToID = none) :
    (createVolume true ⟨some qid, false, false⟩ SaveOutcome.ok volID name S
      AccessType.mount s).1 = VmResult.ok ∧
    getAvailableCapacity blocks bsize
      (createVolume true ⟨some qid, false, false⟩ SaveOutcome.ok volID name S
        AccessType.mount s).2.mem =
      getAvailableCapacity blocks bsize s.mem - S - 4096 ∧
    (deleteVolume ⟨some qid, false, false⟩ volID
      (createVolume true ⟨some qid, false, false⟩ SaveOutcome.ok volID name S
        AccessType.mount s).2).1 = VmResult.ok ∧
    getAvailableCapacity blocks bsize
      (deleteVolume ⟨some qid, false, false⟩ volID
        (createVolume true ⟨some qid, false, false⟩ SaveOutcome.ok volID name S
          AccessType.mount s).2).2.mem =
      getAvailableCapacity blocks bsize s.mem := by
  obtain ⟨d, f, ⟨mv, mn, mt⟩, li, tg, mo⟩ := s
  simp only at hdir hfile hid hname
  refine ⟨?_, ?_, ?_, ?_⟩
  · simp [createVolume, saveVolumeState]
  · simp [createVolume, saveVolumeState, getAvailableCapacity,
      metadataFileMaxSize, length_insertA _ hid]
    ring
  · simp [createVolume, saveVolumeState, deleteVolume, lookupA_insertA_self]
  · simp [createVolume, saveVolumeState, deleteVolume, deleteVolumeState,
      lookupA_insertA_self, eraseA_insertA_cancel _ hid,
      eraseA_insertA_cancel _ hname, eraseA_insertA_cancel _ hfile,
      getAvailableCapacity]

/-- C6 witness: creating volume u1 of size 5 on the empty root with a
10-block, 4096-byte-block statfs reading moves the available capacity
from 36864 down by 5 + 4096, and the matching delete restores it. -/
theorem c6_witness :
    (createVolume true ⟨some 3, false, false⟩ SaveOutcome.ok "u1" "v1" 5
      AccessType.mount emptySys).1 = VmResult.ok ∧
    getAvailableCapacity 10 4096
      (createVolume true ⟨some 3, false, false⟩ SaveOutcome.ok "u1" "v1" 5
        AccessType.mount emptySys).2.mem =
      getAvailableCapacity 10 4096 emptySys.mem - 5 - 4096 ∧
    (deleteVolume ⟨some 3, false, false⟩ "u1"
      (createVolume true ⟨some 3, false, false⟩ SaveOutcome.ok "u1" "v1" 5
        AccessType.mount emptySys).2).1 = VmResult.ok ∧
    getAvailableCapacity 10 4096
      (deleteVolume ⟨some 3, false, false⟩ "u1"
        (createVolume true ⟨some 3, false, false⟩ SaveOutcome.ok "u1" "v1" 5
          AccessType.mount emptySys).2).2.mem =
      getAvailableCapacity 10 4096 emptySys.mem :=
  c6_capacity_conservation 10 4096 "u1" "v1" 5 3 emptySys
    (by simp [emptySys]) rfl rfl rfl

theorem classify_cons_all_mount (c : VolCap) (cs : List VolCap)
    (b m : Bool) (t : AccessType) (f : String)
    (h : ∀ x ∈ c :: cs, validVolCap x = true) :
    ∃ ft, classifyCapsAux (b, m, t, f) (c :: cs) =
        some (b, true, AccessType.mount, ft) ∧ (ft = "" ∨ ft = "xfs") := by
  induction cs generalizing c b m t f with
  | nil =>
      have hc := h c (List.mem_cons_self c [])
      cases hacc : c.access with
      | mountCap ft flags =>
          refine ⟨ft, by simp [classifyCapsAux, hacc], ?_⟩
          simp [validVolCap, hacc] at hc
          exact hc.2
      | blockCap => simp [validVolCap, hacc] at hc
      | unset => simp [validVolCap, hacc] at hc
  | cons c₂ cs₂ ih =>
      have hc := h c (List.mem_cons_self c (c₂ :: cs₂))
      cases hacc : c.access with
      | mountCap ft flags =>
          have h₂ : ∀ x ∈ c₂ :: cs₂, validVolCap x = true := by
            intro x hx
            exact h x (List.mem_cons_of_mem c hx)
          obtain ⟨ft₂, hcl, hok⟩ := ih c₂ b true AccessType.mount ft h₂
          refine ⟨ft₂, ?_, hok⟩
          have hstep : classifyCapsAux (b, m, t, f) (c :: c₂ :: cs₂) =
              classifyCapsAux (b, true, AccessType.mount, ft) (c₂ :: cs₂) := by
            simp only [classifyCapsAux, hacc]
          rw [hstep, hcl]
      | blockCap => simp [validVolCap, hacc] at hc
      | unset => simp [validVolCap, hacc] at hc

theorem classify_all_mount (caps : List VolCap)
    (h : ∀ x ∈ caps, validVolCap x = true) (hne : caps ≠ []) :
    ∃ ft, classifyCapsAux (false, false, AccessType.mount, "") caps =
        some (false, true, AccessType.mount, ft) ∧ (ft = "" ∨ ft = "xfs") := by
  cases caps with
  | nil => exact absurd rfl hne
  | cons c cs => exact classify_cons_all_mount c cs false false AccessType.mount "" h

/-- C3: CreateVolume is idempotent by name: for every valid request
whose name is already recorded, if the recorded size equals the
requested capacity the handler returns the existing volume's id with
that capacity and performs no side effects; if the recorded size
differs it fails with AlreadyExists, also without side effects. -/
theorem c3_create_idempotent_by_name (env : DriverEnv) (req : CreateVolumeRequest)
    (s : Sys) (vs : VolumeState)
    (hname : req.name ≠ "")
    (hcaps : req.caps ≠ [])
    (hvalid : validateVolumeCapabilities req.caps = true)
    (hparams : req.parameters = [])
    (htopo : req.requisite = [] ∨
      topoListEq req.requisite [[(nodeNameTopologyKey, env.nodeName)]] = true)
    (hfound : getVolumeStateByName s.mem req.name = some vs) :
    (vs.size = req.requiredBytes →
      driverCreateVolume env req s = (CvOut.ok vs.id req.requiredBytes, s)) ∧
    (vs.size ≠ req.requiredBytes →
      driverCreateVolume env req s = (CvOut.err GrpcCode.alreadyExists, s)) := by
  have hall : ∀ x ∈ req.caps, validVolCap x = true := by
    intro x hx
    have := hvalid
    simp only [validateVolumeCapabilities, List.all_eq_true] at this
    exact this x hx
  obtain ⟨ft, hclass, hft⟩ := classify_all_mount req.caps hall hcaps
  have hfs : (ft == "" || ft == "xfs") = true := by
    rcases hft with h₁ | h₁ <;> simp [h₁]
  have htopo₂ : ¬ (req.requisite ≠ [] ∧
      topoListEq req.requisite [[(nodeNameTopologyKey, env.nodeName)]] = false) := by
    rcases htopo with h₁ | h₁
    · exact fun hcontra => hcontra.1 h₁
    · exact fun hcontra => by rw [h₁] at hcontra; exact absurd hcontra.2 (by simp)
  constructor <;> intro hsz <;>
    simp [driverCreateVolume, hname, hcaps, hvalid, hparams, hclass, hfs,
      htopo₂, hfound, hsz]

/-- C3 witness: retrying the create of v1 with the recorded size 5
returns the recorded id u1 and leaves the state unchanged. -/
theorem c3_witness :
    driverCreateVolume
      ⟨"node-a", true, 10, 4096, "u2", ⟨some 3, false, false⟩, SaveOutcome.ok⟩
      ⟨"v1", [⟨AccessMode.singleNodeWriter, CapAccess.mountCap "" []⟩], [], [], 5⟩
      { emptySys with
        mem := { volumes := [("u1", ⟨"v1", "u1", 3, 5⟩)]
                 nameToID := [("v1", "u1")]
                 totalSize := 5 } } =
      (CvOut.ok "u1" 5,
        { emptySys with
          mem := { volumes := [("u1", ⟨"v1", "u1", 3, 5⟩)]
                   nameToID := [("v1", "u1")]
                   totalSize := 5 } }) :=
  (c3_create_idempotent_by_name
    ⟨"node-a", true, 10, 4096, "u2", ⟨some 3, false, false⟩, SaveOutcome.ok⟩
    ⟨"v1", [⟨AccessMode.singleNodeWriter, CapAccess.mountCap "" []⟩], [], [], 5⟩
    { emptySys with
      mem := { volumes := [("u1", ⟨"v1", "u1", 3, 5⟩)]
               nameToID := [("v1", "u1")]
               totalSize := 5 } }
    ⟨"v1", "u1", 3, 5⟩ (by decide) (by simp) rfl rfl (Or.inl rfl) rfl).1 rfl

theorem loadStateAux_preserved (A B : String) (v : VolumeState)
    (t : List (FileName × FileContent)) (m : StateMem)
    (h : ∀ p ∈ t, p.1.2 = ".json" →
      ∃ w, p.2 = FileContent.record w ∧ w.id ≠ A ∧ w.name ≠ B)
    (hA : lookupA A m.volumes = some v) (hB : lookupA B m.nameToID = some A) :
    ∃ m₁, loadStateAux t m = some m₁ ∧
      lookupA A m₁.volumes = some v ∧ lookupA B m₁.nameToID = some A := by
  induction t generalizing m with
  | nil => exact ⟨m, rfl, hA, hB⟩
  | cons p t₂ ih =>
      have h₂ : ∀ q ∈ t₂, q.1.2 = ".json" →
          ∃ w, q.2 = FileContent.record w ∧ w.id ≠ A ∧ w.name ≠ B :=
        fun q hq => h q (List.mem_cons_of_mem p hq)
      obtain ⟨fname, c⟩ := p
      by_cases hext : fname.2 = ".json"
      · obtain ⟨w, hw, hwid, hwname⟩ :=
          h (fname, c) (List.mem_cons_self (fname, c) t₂) hext
        subst hw
        by_cases hemp : w.isEmpty = true
        · obtain ⟨m₁, hm₁, g₁, g₂⟩ := ih m h₂ hA hB
          exact ⟨m₁, by simp [loadStateAux, hext, hemp, hm₁], g₁, g₂⟩
        · have hA₂ : lookupA A (insertA w.id w m.volumes) = some v := by
            rw [lookupA_insertA_ne w m.volumes hwid.symm]
            exact hA
          have hB₂ : lookupA B (insertA w.name w.id m.nameToID) = some A := by
            rw [lookupA_insertA_ne w.id m.nameToID hwname.symm]
            exact hB
          obtain ⟨m₁, hm₁, g₁, g₂⟩ := ih
            ⟨insertA w.id w m.volumes, insertA w.name w.id m.nameToID,
              m.totalSize + w.size⟩ h₂ hA₂ hB₂
          exact ⟨m₁, by simp [loadStateAux, hext, hemp, hm₁], g₁, g₂⟩
      · obtain ⟨m₁, hm₁, g₁, g₂⟩ := ih m h₂ hA hB
        exact ⟨m₁, by simp [loadStateAux, hext, hm₁], g₁, g₂⟩

/-- C5: state round-trips through disk: for every record v with
non-empty id and non-empty name, the id containing no path separator,
and every volumes root whose other json state files all parse to
records with a different id and name, after save(v) a fresh state
store load of the same root finds v both by id and by name. -/
theorem c5_state_roundtrip (v : VolumeState)
    (files : List (FileName × FileContent)) (mem : StateMem)
    (hid : v.id ≠ "") (hname : v.name ≠ "")
    (_hsep : Char.ofNat 47 ∉ v.id.data)
    (hothers : ∀ p ∈ eraseA (stateFileName v.id) files, p.1.2 = ".json" →
      ∃ w, p.2 = FileContent.record w ∧ w.id ≠ v.id ∧ w.name ≠ v.name) :
    ∃ m, newStateManager (saveVolumeState v SaveOutcome.ok files mem).2.1 = some m ∧
      getVolumeStateByID m v.id = some v ∧
      getVolumeStateByName m v.name = some v := by
  have hempv : v.isEmpty = false := by
    simp [VolumeState.isEmpty, hid, hname]
  obtain ⟨m₁, hm₁, g₁, g₂⟩ := loadStateAux_preserved v.id v.name v
    (eraseA (stateFileName v.id) files)
    ⟨insertA v.id v [], insertA v.name v.id [], 0 + v.size⟩
    hothers (by simp [insertA, lookupA, eraseA]) (by simp [insertA, lookupA, eraseA])
  refine ⟨m₁, ?_, ?_, ?_⟩
  · simpa [newStateManager, saveVolumeState, insertA, eraseA, loadStateAux,
      stateFileName, hempv] using hm₁
  · simpa [getVolumeStateByID] using g₁
  · simp [getVolumeStateByName, g₂, g₁]

/-- C5 witness: saving the record (v1, u1) into an empty root and
reloading yields the record by id and by name. -/
theorem c5_witness :
    ∃ m, newStateManager
        (saveVolumeState ⟨"v1", "u1", 3, 5⟩ SaveOutcome.ok [] ⟨[], [], 0⟩).2.1 = some m ∧
      getVolumeStateByID m "u1" = some ⟨"v1", "u1", 3, 5⟩ ∧
      getVolumeStateByName m "v1" = some ⟨"v1", "u1", 3, 5⟩ :=
  c5_state_roundtrip ⟨"v1", "u1", 3, 5⟩ [] ⟨[], [], 0⟩
    (by decide) (by decide) (by decide) (by simp [eraseA])

theorem restoreAll_ok_of_match (env : XfsEnv) (volumes : List VolumeState) :
    ∀ tbl : List (Nat × Nat),
      (∀ v ∈ volumes, env.dirProjectID v.id = some v.limitID) →
      restoreAll env volumes tbl = Except.ok (restoreTable volumes tbl) := by
  induction volumes with
  | nil => intro tbl _; rfl
  | cons w t ih =>
      intro tbl h
      have hw := h w (List.mem_cons_self w t)
      have h₂ : ∀ v ∈ t, env.dirProjectID v.id = some v.limitID :=
        fun v hv => h v (List.mem_cons_of_mem w hv)
      simp [restoreAll, restoreVolumeQuota, hw, restoreTable, List.foldl_cons,
        ih _ h₂]

theorem lookupA_restoreTable_of_no_key (k : Nat) (volumes : List VolumeState) :
    ∀ tbl : List (Nat × Nat), (∀ v ∈ volumes, v.limitID ≠ k) →
      lookupA k (restoreTable volumes tbl) = lookupA k tbl := by
  induction volumes with
  | nil => intro tbl _; rfl
  | cons w t ih =>
      intro tbl h
      have hw : k ≠ w.limitID := (h w (List.mem_cons_self w t)).symm
      have h₂ : ∀ v ∈ t, v.limitID ≠ k :=
        fun v hv => h v (List.mem_cons_of_mem w hv)
      calc lookupA k (restoreTable (w :: t) tbl)
          = lookupA k (restoreTable t (xfsSetLimit w.limitID w.size tbl)) := rfl
        _ = lookupA k (xfsSetLimit w.limitID w.size tbl) := ih _ h₂
        _ = lookupA k tbl := lookupA_insertA_ne _ _ hw

theorem lookupA_restoreTable_of_mem (v : VolumeState) (volumes : List VolumeState) :
    ∀ tbl : List (Nat × Nat), v ∈ volumes →
      List.Pairwise (fun a b => a.limitID ≠ b.limitID) volumes →
      lookupA v.limitID (restoreTable volumes tbl) = some (bytesToBlocks v.size) := by
  induction volumes with
  | nil =>
      intro tbl hmem _
      cases hmem
  | cons w t ih =>
      intro tbl hmem hdist
      rcases List.mem_cons.mp hmem with rfl | h₁
      · have hall : ∀ u ∈ t, u.limitID ≠ v.limitID := by
          intro u hu
          exact ((List.pairwise_cons.mp hdist).1 u hu).symm
        calc lookupA v.limitID (restoreTable (v :: t) tbl)
            = lookupA v.limitID (restoreTable t (xfsSetLimit v.limitID v.size tbl)) := rfl
          _ = lookupA v.limitID (xfsSetLimit v.limitID v.size tbl) :=
              lookupA_restoreTable_of_no_key v.limitID t _ hall
          _ = some (bytesToBlocks v.size) := lookupA_insertA_self _ _ _
      · exact ih _ h₁ (List.pairwise_cons.mp hdist).2

theorem restoreAll_err_of_mismatch (env : XfsEnv) (volumes : List VolumeState) :
    ∀ tbl : List (Nat × Nat), (∀ v ∈ volumes, (env.dirProjectID v.id).isSome) →
      (∃ v ∈ volumes, env.dirProjectID v.id ≠ some v.limitID) →
      ∃ id, restoreAll env volumes tbl = Except.error (XfsErr.tampered id) := by
  induction volumes with
  | nil =>
      intro tbl _ h
      rcases h with ⟨v, hv, _⟩
      cases hv
  | cons w t ih =>
      intro tbl hall hex
      obtain ⟨p, hp⟩ :=
        Option.isSome_iff_exists.mp (hall w (List.mem_cons_self w t))
      by_cases hpw : p = w.limitID
      · have hw : env.dirProjectID w.id = some w.limitID := by rw [hp, hpw]
        have hex₂ : ∃ v ∈ t, env.dirProjectID v.id ≠ some v.limitID := by
          rcases hex with ⟨v, hv, hne⟩
          rcases List.mem_cons.mp hv with rfl | hvt
          · exact absurd hw hne
          · exact ⟨v, hvt, hne⟩
        obtain ⟨id, hid⟩ := ih (xfsSetLimit w.limitID w.size tbl)
          (fun v hv => hall v (List.mem_cons_of_mem w hv)) hex₂
        exact ⟨id, by simp [restoreAll, restoreVolumeQuota, hw, hid]⟩
      · exact ⟨w.id, by simp [restoreAll, restoreVolumeQuota, hp, hpw]⟩

/-- C8: startup tampering detection: when the volumes root is XFS
with a pquota or prjquota mount option and every recorded volume's
directory can be opened, NewXFSLimiter fails with a tampering error
whenever some directory's project id differs from its recorded limit
id; when they all match (and recorded limit ids are distinct),
construction succeeds and the quota table maps each recorded limit id
to the volume's block hard-limit. -/
theorem c8_startup_tampering (env : XfsEnv) (volumes : List VolumeState)
    (tbl : List (Nat × Nat))
    (hfs : env.fsType = "xfs") (hentry : env.entryType = "xfs")
    (hopts : (env.mountOpts.contains "pquota" ||
      env.mountOpts.contains "prjquota") = true)
    (hdirs : ∀ v ∈ volumes, (env.dirProjectID v.id).isSome) :
    ((∃ v ∈ volumes, env.dirProjectID v.id ≠ some v.limitID) →
      ∃ id, newXFSLimiter env volumes tbl = Except.error (XfsErr.tampered id)) ∧
    ((∀ v ∈ volumes, env.dirProjectID v.id = some v.limitID) →
      List.Pairwise (fun a b => a.limitID ≠ b.limitID) volumes →
      newXFSLimiter env volumes tbl = Except.ok (restoreTable volumes tbl) ∧
      ∀ v ∈ volumes, lookupA v.limitID (restoreTable volumes tbl) =
        some (bytesToBlocks v.size)) := by
  have hguards : newXFSLimiter env volumes tbl = restoreAll env volumes tbl := by
    have hmem := hopts
    simp only [Bool.or_eq_true] at hmem
    simp [newXFSLimiter, hfs, hentry]
    intro h₁ h₂
    rcases hmem with h | h
    · exact absurd (by simpa using h) h₁
    · exact absurd (by simpa using h) h₂
  constructor
  · intro hex
    obtain ⟨id, hid⟩ := restoreAll_err_of_mismatch env volumes tbl hdirs hex
    exact ⟨id, by rw [hguards, hid]⟩
  · intro hmatch hdist
    refine ⟨by rw [hguards, restoreAll_ok_of_match env volumes tbl hmatch], ?_⟩
    intro v hv
    exact lookupA_restoreTable_of_mem v volumes tbl hv hdist

/-- C8 witness: on an XFS root mounted with prjquota, restoring the
single matching volume (directory project id 3, limit id 3, size 1024)
succeeds and re-applies the 2-block hard limit. -/
theorem c8_witness :
    newXFSLimiter
      ⟨"xfs", "xfs", ["rw", "prjquota"], fun id => if id = "u1" then some 3 else none⟩
      [⟨"v1", "u1", 3, 1024⟩] [] =
      Except.ok (restoreTable [⟨"v1", "u1", 3, 1024⟩] []) ∧
    lookupA 3 (restoreTable [⟨"v1", "u1", 3, 1024⟩] []) =
      some (bytesToBlocks 1024) := by
  have h := (c8_startup_tampering
      ⟨"xfs", "xfs", ["rw", "prjquota"], fun id => if id = "u1" then some 3 else none⟩
      [⟨"v1", "u1", 3, 1024⟩] [] rfl rfl (by decide)
      (by intro v hv; rw [List.mem_singleton] at hv; subst hv; rfl)).2
    (by intro v hv; rw [List.mem_singleton] at hv; subst hv; rfl)
    (by simp)
  exact ⟨h.1, h.2 ⟨"v1", "u1", 3, 1024⟩ (List.mem_singleton.mpr rfl)⟩

/-- C10: NodePublishVolume never consults the state store for the
volume id: its outcome and effects are invariant under replacing the
in-memory store, and every request that passes validation (non-empty
target path, supported mount capability) whose volume id has no
directory under the volumes root fails with Internal (the bind-mount
fails), not NotFound. -/
theorem c10_publish_ignores_state (req : NodePublishRequest) (s : Sys)
    (m : StateMem) :
    ((nodePublishVolume req { s with mem := m }).1 =
        (nodePublishVolume req s).1 ∧
      (nodePublishVolume req { s with mem := m }).2 =
        { (nodePublishVolume req s).2 with mem := m }) ∧
    (∀ c, req.volCap = some c → validVolCap c = true → req.targetPath ≠ "" →
      req.volumeId ∉ s.dirs →
      (nodePublishVolume req s).1 = Except.error GrpcCode.internal) := by
  constructor
  · by_cases ht : req.targetPath = ""
    · simp [nodePublishVolume, ht]
    · cases hvc : req.volCap with
      | none => simp [nodePublishVolume, ht, hvc]
      | some c =>
          by_cases hv : validVolCap c = true
          · cases hacc : c.access with
            | mountCap ft flags =>
                by_cases hmemdir : req.volumeId ∈ s.dirs
                · simp [nodePublishVolume, ht, hvc, hv, hacc, vmMount, hmemdir]
                · simp [nodePublishVolume, ht, hvc, hv, hacc, vmMount, hmemdir]
            | blockCap => simp [validVolCap, hacc] at hv
            | unset => simp [validVolCap, hacc] at hv
          · simp [nodePublishVolume, ht, hvc, hv]
  · intro c hvc hv ht hdir
    cases hacc : c.access with
    | mountCap ft flags =>
        simp [nodePublishVolume, ht, hvc, hv, hacc, vmMount, hdir]
    | blockCap => simp [validVolCap, hacc] at hv
    | unset => simp [validVolCap, hacc] at hv

/-- C10 witness: publishing the unknown volume id u9 with a valid
mount capability fails with Internal, not NotFound. -/
theorem c10_witness :
    (nodePublishVolume
      ⟨"u9", "/t/path",
        some ⟨AccessMode.singleNodeWriter, CapAccess.mountCap "" []⟩, false⟩
      emptySys).1 = Except.error GrpcCode.internal :=
  (c10_publish_ignores_state
    ⟨"u9", "/t/path",
      some ⟨AccessMode.singleNodeWriter, CapAccess.mountCap "" []⟩, false⟩
    emptySys ⟨[], [], 0⟩).2
    ⟨AccessMode.singleNodeWriter, CapAccess.mountCap "" []⟩
    rfl rfl (by decide) (by simp [emptySys])

end LocalCsi
